import Mathlib

/-!
Verification of core algorithms of the vw_explorer guide-camera pipeline
against a shallow embedding in Lean 4.

Conventions used throughout this development:
* Python floats are modelled as exact rationals (`ℚ`); the code under study
  only adds, subtracts, multiplies, divides and compares, so the idealisation
  real-instead-of-IEEE is the standard one.  Where a float can be NaN or an
  infinity and the code branches on that, the four-way type `PyFloat` is used.
* Square roots (np.sqrt, np.std, np.hypot) are irrational, so every function
  that needs one takes an abstract `sq : ℚ → ℚ` argument standing for the
  exact real square root; theorems only ever rely on `sq 0 = 0`, which holds
  for the real square root, and concrete counterexamples instantiate `sq`
  with a function that is exact on every value the computation consumes.
* Python's stable `list.sort` is modelled by a stable insertion sort
  (`stableSort`), which computes the same list as any stable sort.
* Functions that can raise are embedded in `Except String`; the message text
  mirrors the exception raised by the source.
-/

/-- Stable insertion of an element into a list: the new element goes in front
of the first entry it compares `le` to, so earlier elements with an equal key
stay in front of later ones.  Used to model Python's stable `list.sort`. -/
def insertSorted (le : α → α → Bool) (a : α) : List α → List α
  | [] => [a]
  | b :: bs => if le a b then a :: b :: bs else b :: insertSorted le a bs

/-- Stable insertion sort, extensionally equal to Python's stable sort. -/
def stableSort (le : α → α → Bool) : List α → List α
  | [] => []
  | a :: as => insertSorted le a (stableSort le as)

/-- Boolean-mask selection `arr[mask]` of numpy, on lists. -/
def maskedSelect (l : List α) (mask : List Bool) : List α :=
  (l.zip mask).filterMap fun p => if p.2 then some p.1 else none

theorem insertSorted_perm (le : α → α → Bool) (a : α) (l : List α) :
    List.Perm (insertSorted le a l) (a :: l) := by
  induction l with
  | nil => simp [insertSorted]
  | cons b bs ih =>
    by_cases h : le a b = true
    · simp [insertSorted, h]
    · simp only [insertSorted, h, if_false]
      exact ((ih.cons b).trans (List.Perm.swap a b bs))

theorem stableSort_perm (le : α → α → Bool) (l : List α) :
    List.Perm (stableSort le l) l := by
  induction l with
  | nil => simp [stableSort]
  | cons a as ih =>
    exact (insertSorted_perm le a (stableSort le as)).trans (ih.cons a)

theorem stableSort_eq_self (le : α → α → Bool) (l : List α)
    (h : List.Chain' (fun a b => le a b = true) l) : stableSort le l = l := by
  induction l with
  | nil => rfl
  | cons a as ih =>
    cases as with
    | nil => rfl
    | cons b bs =>
      have hab : le a b = true := (List.chain'_cons.mp h).1
      have htl : List.Chain' (fun a b => le a b = true) (b :: bs) :=
        (List.chain'_cons.mp h).2
      simp only [stableSort] at ih ⊢
      rw [ih htl, insertSorted, if_pos hab]

/-! ## Dither chunk grouping (classes/dither_chunk.py, classes/observation_sequence.py)

The fields of `Observation` read by the grouping algorithm are the target
name, the dither index and the start time (the latter because
`ObservationSequence.__post_init__` re-sorts its observations by start time).
-/

/-- Observation (observation.py): the fields consumed by the dither-chunk
grouping.  The dither index is an `ℤ` because the source manipulates it with
Python integer arithmetic. -/
structure Observation where
  target : String
  start_time_ut : ℚ
  dither : ℤ
deriving DecidableEq

/-- Comparison key of `ObservationSequence.__post_init__`:
`sort(key=lambda x: x.start_time_ut)`. -/
def obsTimeLe (a b : Observation) : Bool :=
  decide (a.start_time_ut ≤ b.start_time_ut)

/-- ObservationSequence (observation_sequence.py): the wrapped observation
list.  Only the parts used by the chunking code are embedded. -/
structure ObservationSequence where
  observations : List Observation
deriving DecidableEq

/-- ObservationSequence construction: `__post_init__` sorts the observations
by start time (stable Python sort). -/
def mkObservationSequence (l : List Observation) : ObservationSequence :=
  ⟨stableSort obsTimeLe l⟩

/-- Comparison used to model Python's `sorted` on strings. -/
def strLe (a b : String) : Bool := decide (a ≤ b)

/-- ObservationSequence.all_targets: `sorted(set(obs.target for obs in ...))`.
Deduplicate, then sort. -/
def ObservationSequence.all_targets (s : ObservationSequence) : List String :=
  stableSort strLe ((s.observations.map (fun o => o.target)).dedup)

/-- DitherChunk (dither_chunk.py): an observation sequence plus a 0-based
chunk index. -/
structure DitherChunk where
  obs_seq : ObservationSequence
  chunk_index : ℕ
deriving DecidableEq

/-- DitherChunk construction with the `__post_init__` assertion
`len(self.obs_seq.all_targets) == 1`; a failing assert raises. -/
def DitherChunk.make (obs_seq : ObservationSequence) (chunk_index : ℕ) :
    Except String DitherChunk :=
  if obs_seq.all_targets.length = 1 then .ok ⟨obs_seq, chunk_index⟩
  else .error "AssertionError: DitherChunk must contain observations for a single target."

/-- Loop body of `get_dither_chunks_for_target` (dither_chunk.py L153-164):
walk the remaining observations keeping the previous one, the current chunk
and the closed chunks; the source continues the chunk exactly when
`target_obs[i - 1].dither == obs.dither - 1`. -/
def chunkRec (prev : Observation) (cur : List Observation)
    (acc : List (List Observation)) :
    List Observation → List (List Observation) × List Observation
  | [] => (acc, cur)
  | o :: rest =>
    if prev.dither = o.dither - 1 then chunkRec o (cur ++ [o]) acc rest
    else chunkRec o [o] (acc ++ [cur]) rest

/-- Turn the enumerated chunk lists into DitherChunk values in order
(the list comprehension over `enumerate(obs_by_chunks)`), propagating the
first assertion failure like Python would. -/
def buildChunks : List (ℕ × List Observation) → Except String (List DitherChunk)
  | [] => .ok []
  | p :: ps =>
    match DitherChunk.make (mkObservationSequence p.2) p.1 with
    | .error e => .error e
    | .ok c =>
      match buildChunks ps with
      | .error e => .error e
      | .ok cs => .ok (c :: cs)

/-- DitherChunk.get_dither_chunks_for_target (dither_chunk.py L136-171):
filter the observations of the target, raise if none, then group them into
chunks with `chunkRec` (the first observation always opens the current
chunk), append the last chunk if non-empty, and enumerate. -/
def get_dither_chunks_for_target (obs_seq : List Observation)
    (target_name : String) : Except String (List DitherChunk) :=
  let target_obs := obs_seq.filter (fun o => o.target == target_name)
  match target_obs with
  | [] => .error ("ValueError: No observations found for target " ++ target_name)
  | first :: rest =>
    let r := chunkRec first [first] [] rest
    let obs_by_chunks := if r.2.isEmpty then r.1 else r.1 ++ [r.2]
    buildChunks obs_by_chunks.enum

/-- Source form of the chunk-continuation test at dither_chunk.py L157:
`target_obs[i - 1].dither == obs.dither - 1`. -/
def ditherStepR (a b : Observation) : Prop := a.dither = b.dither - 1

/-- Relation between two adjacent chunks: the step across the boundary
fails the continuation test. -/
def chunkBoundaryB (c d : List Observation) : Prop :=
  ∀ a b, c.getLast? = some a → d.head? = some b → ¬ ditherStepR a b

theorem ne_nil_of_getLast?_eq_some {l : List α} {a : α}
    (h : l.getLast? = some a) : l ≠ [] := by
  intro hnil
  subst hnil
  simp at h

theorem chunkRec_invariant (l : List Observation) :
    ∀ (prev : Observation) (cur : List Observation)
      (acc : List (List Observation)),
    cur.getLast? = some prev →
    List.Chain' ditherStepR cur →
    (∀ c ∈ acc, c ≠ [] ∧ List.Chain' ditherStepR c) →
    List.Chain' chunkBoundaryB (acc ++ [cur]) →
    ((chunkRec prev cur acc l).1 ++ [(chunkRec prev cur acc l).2]).flatten
        = acc.flatten ++ cur ++ l ∧
    (∀ c ∈ (chunkRec prev cur acc l).1 ++ [(chunkRec prev cur acc l).2],
        c ≠ [] ∧ List.Chain' ditherStepR c) ∧
    List.Chain' chunkBoundaryB
        ((chunkRec prev cur acc l).1 ++ [(chunkRec prev cur acc l).2]) ∧
    (chunkRec prev cur acc l).2.getLast? = (cur ++ l).getLast? := by
  induction l with
  | nil =>
    intro prev cur acc hlast hcur hacc hB
    refine ⟨by simp [chunkRec], ?_, by simpa [chunkRec] using hB, by simp [chunkRec]⟩
    intro c hc
    simp only [chunkRec] at hc
    rcases List.mem_append.mp hc with h | h
    · exact hacc c h
    · have : c = cur := by simpa using h
      subst this
      exact ⟨ne_nil_of_getLast?_eq_some hlast, hcur⟩
  | cons o rest ih =>
    intro prev cur acc hlast hcur hacc hB
    by_cases h : prev.dither = o.dither - 1
    · -- the chunk is continued with o
      have hrec : chunkRec prev cur acc (o :: rest)
          = chunkRec o (cur ++ [o]) acc rest := by
        simp [chunkRec, h]
      have hcur' : List.Chain' ditherStepR (cur ++ [o]) := by
        refine List.chain'_append.mpr ⟨hcur, List.chain'_singleton o, ?_⟩
        intro x hx y hy
        simp only [hlast, Option.mem_def, Option.some.injEq] at hx
        simp only [List.head?_cons, Option.mem_def, Option.some.injEq] at hy
        subst hx
        subst hy
        exact h
      have hB' : List.Chain' chunkBoundaryB (acc ++ [cur ++ [o]]) := by
        rcases List.chain'_append.mp hB with ⟨hBacc, -, hbound⟩
        refine List.chain'_append.mpr ⟨hBacc, List.chain'_singleton _, ?_⟩
        intro x hx y hy
        simp only [List.head?_cons, Option.mem_def, Option.some.injEq] at hy
        subst hy
        intro a b ha hb
        have hcur_ne : cur ≠ [] := ne_nil_of_getLast?_eq_some hlast
        have hho : (cur ++ [o]).head? = cur.head? := by
          rw [List.head?_append]
          rcases hcc : cur.head? with _ | c0
          · exact absurd (List.head?_eq_none_iff.mp hcc) hcur_ne
          · rfl
        exact hbound x hx cur (by simp) a b ha (hho ▸ hb)
      obtain ⟨h1, h2, h3, h4⟩ :=
        ih o (cur ++ [o]) acc (List.getLast?_concat cur) hcur' hacc hB'
      rw [hrec]
      refine ⟨by simpa [List.append_assoc] using h1, h2, h3, ?_⟩
      simpa [List.append_assoc] using h4
    · -- the chunk is closed and o opens a new one
      have hrec : chunkRec prev cur acc (o :: rest)
          = chunkRec o [o] (acc ++ [cur]) rest := by
        simp [chunkRec, h]
      have hacc' : ∀ c ∈ acc ++ [cur], c ≠ [] ∧ List.Chain' ditherStepR c := by
        intro c hc
        rcases List.mem_append.mp hc with hmem | hmem
        · exact hacc c hmem
        · have : c = cur := by simpa using hmem
          subst this
          exact ⟨ne_nil_of_getLast?_eq_some hlast, hcur⟩
      have hB' : List.Chain' chunkBoundaryB ((acc ++ [cur]) ++ [[o]]) := by
        refine List.chain'_append.mpr ⟨hB, List.chain'_singleton _, ?_⟩
        intro x hx y hy
        simp only [List.getLast?_concat, Option.mem_def, Option.some.injEq] at hx
        simp only [List.head?_cons, Option.mem_def, Option.some.injEq] at hy
        subst hx
        subst hy
        intro a b ha hb
        have ha2 : a = prev := (Option.some.inj (hlast.symm.trans ha)).symm
        have hb2 : b = o := by
          simp only [List.head?_cons, Option.some.injEq] at hb
          exact hb.symm
        subst ha2
        subst hb2
        exact h
      obtain ⟨h1, h2, h3, h4⟩ :=
        ih o [o] (acc ++ [cur]) rfl (List.chain'_singleton o) hacc' hB'
      rw [hrec]
      refine ⟨?_, h2, h3, ?_⟩
      · rw [h1]
        simp [List.append_assoc]
      · have hgoal : (cur ++ o :: rest).getLast? = (o :: rest).getLast? := by
          rw [List.getLast?_append]
          rcases hz : (o :: rest).getLast? with _ | z
          · exact absurd (List.getLast?_eq_none_iff.mp hz) (by simp)
          · rfl
        rw [h4, List.singleton_append, hgoal]

theorem dedup_const [DecidableEq α] :
    ∀ (l : List α) (a : α), l ≠ [] → (∀ x ∈ l, x = a) → l.dedup = [a]
  | [], a, hne, _ => absurd rfl hne
  | [x], a, _, hall => by
    have : x = a := hall x (by simp)
    subst this
    simp
  | x :: y :: t, a, _, hall => by
    have hx : x = a := hall x (by simp)
    have hy : y = a := hall y (by simp)
    have htail : (y :: t).dedup = [a] :=
      dedup_const (y :: t) a (by simp) (fun z hz => hall z (List.mem_cons_of_mem x hz))
    have hmem : x ∈ y :: t := by
      rw [hx, hy]
      exact List.mem_cons_self a t
    rw [List.dedup_cons_of_mem hmem, htail]

theorem all_targets_const (l : List Observation) (name : String)
    (hne : l ≠ []) (h : ∀ o ∈ l, o.target = name) :
    (mkObservationSequence l).all_targets = [name] := by
  unfold mkObservationSequence ObservationSequence.all_targets
  have hperm := stableSort_perm obsTimeLe l
  have hsne : stableSort obsTimeLe l ≠ [] := by
    intro hnil
    exact hne (List.Perm.eq_nil (hnil ▸ hperm).symm)
  have hmapne : (stableSort obsTimeLe l).map (fun o => o.target) ≠ [] := by
    simpa using hsne
  have hmapall : ∀ x ∈ (stableSort obsTimeLe l).map (fun o => o.target), x = name := by
    intro x hx
    rcases List.mem_map.mp hx with ⟨o, ho, rfl⟩
    exact h o (hperm.mem_iff.mp ho)
  rw [dedup_const _ name hmapne hmapall]
  rfl

theorem snd_mem_of_mem_enumFrom :
    ∀ {l : List α} {n : ℕ} {p : ℕ × α}, p ∈ l.enumFrom n → p.2 ∈ l := by
  intro l
  induction l with
  | nil => intro n p h; simp at h
  | cons x xs ih =>
    intro n p h
    rcases List.mem_cons.mp h with h | h
    · subst h; simp
    · exact List.mem_cons_of_mem x (ih h)

theorem snd_mem_of_mem_enum {l : List α} {p : ℕ × α} (h : p ∈ l.enum) :
    p.2 ∈ l := snd_mem_of_mem_enumFrom h

theorem buildChunks_ok (name : String) :
    ∀ (ps : List (ℕ × List Observation)),
    (∀ p ∈ ps, p.2 ≠ [] ∧ ∀ o ∈ p.2, o.target = name) →
    buildChunks ps = .ok (ps.map (fun p => ⟨mkObservationSequence p.2, p.1⟩))
  | [], _ => rfl
  | p :: ps, h => by
    have hp := h p (by simp)
    have hmk : DitherChunk.make (mkObservationSequence p.2) p.1
        = .ok ⟨mkObservationSequence p.2, p.1⟩ := by
      unfold DitherChunk.make
      rw [all_targets_const p.2 name hp.1 hp.2]
      rfl
    have htail := buildChunks_ok name ps (fun q hq => h q (List.mem_cons_of_mem p hq))
    simp only [buildChunks, hmk, htail, List.map_cons]

theorem get_dither_chunks_spec (obs_seq : List Observation) (name : String)
    (hne : obs_seq ≠ [])
    (htgt : ∀ o ∈ obs_seq, o.target = name)
    (hsorted : obs_seq.Pairwise (fun a b => a.start_time_ut ≤ b.start_time_ut)) :
    ∃ chunks,
      get_dither_chunks_for_target obs_seq name = .ok chunks ∧
      (chunks.map (fun c => c.obs_seq.observations)).flatten = obs_seq ∧
      chunks.map (fun c => c.chunk_index) = List.range chunks.length ∧
      (∀ c ∈ chunks, c.obs_seq.observations ≠ [] ∧
          List.Chain' (fun a b => b.dither = a.dither + 1) c.obs_seq.observations) ∧
      List.Chain' (fun c d => ∀ a b,
          c.obs_seq.observations.getLast? = some a →
          d.obs_seq.observations.head? = some b →
          ¬ b.dither = a.dither + 1) chunks := by
  have hfilter : obs_seq.filter (fun o => o.target == name) = obs_seq := by
    apply List.filter_eq_self.mpr
    intro a ha
    simpa using htgt a ha
  obtain ⟨first, rest, rfl⟩ := List.exists_cons_of_ne_nil hne
  obtain ⟨hflat, hmem, hchainB, -⟩ :=
    chunkRec_invariant rest first [first] [] rfl (List.chain'_singleton first)
      (by intro c hc; simp at hc)
      (by simp)
  set r := chunkRec first [first] [] rest with hr
  set allC := r.1 ++ [r.2] with hallC
  have hflat' : allC.flatten = first :: rest := by simpa using hflat
  have hr2ne : r.2 ≠ [] :=
    (hmem r.2 (List.mem_append_right _ (List.mem_singleton_self _))).1
  have hdef : get_dither_chunks_for_target (first :: rest) name
      = buildChunks allC.enum := by
    unfold get_dither_chunks_for_target
    rw [hfilter]
    have hie : r.2.isEmpty = false := by
      rcases hcase : r.2 with _ | ⟨x, xs⟩
      · exact absurd hcase hr2ne
      · rfl
    simp only [← hr, hie, Bool.false_eq_true, if_false, ← hallC]
  have hsubmem : ∀ c ∈ allC, c ≠ [] ∧ List.Chain' ditherStepR c ∧
      stableSort obsTimeLe c = c ∧ (∀ o ∈ c, o.target = name) := by
    intro c hc
    have hsub : c.Sublist (first :: rest) := by
      have := List.sublist_flatten_of_mem hc
      rwa [hflat'] at this
    refine ⟨(hmem c hc).1, (hmem c hc).2, ?_, ?_⟩
    · apply stableSort_eq_self
      have hpw : c.Pairwise (fun a b => a.start_time_ut ≤ b.start_time_ut) :=
        hsorted.sublist hsub
      exact (hpw.imp (fun hab => by simpa [obsTimeLe] using hab)).chain'
    · intro o ho
      exact htgt o (hsub.mem ho)
  have hbuild : buildChunks allC.enum
      = .ok (allC.enum.map (fun p => ⟨mkObservationSequence p.2, p.1⟩)) := by
    apply buildChunks_ok name
    intro p hp
    have := hsubmem p.2 (snd_mem_of_mem_enum hp)
    exact ⟨this.1, this.2.2.2⟩
  refine ⟨allC.enum.map (fun p => ⟨mkObservationSequence p.2, p.1⟩),
    by rw [hdef, hbuild], ?_, ?_, ?_, ?_⟩
  case _ =>
    have hobsmap : (allC.enum.map
          (fun p => (⟨mkObservationSequence p.2, p.1⟩ : DitherChunk))).map
            (fun c => c.obs_seq.observations) = allC := by
      rw [List.map_map]
      have : ∀ p ∈ allC.enum,
          ((fun c => c.obs_seq.observations) ∘
            (fun p => (⟨mkObservationSequence p.2, p.1⟩ : DitherChunk))) p
          = Prod.snd p := by
        intro p hp
        have := (hsubmem p.2 (snd_mem_of_mem_enum hp)).2.2.1
        simpa [mkObservationSequence] using this
      rw [List.map_congr_left this, List.enum_map_snd]
    rw [hobsmap, hflat']
  case _ =>
    rw [List.map_map, List.length_map]
    have : ((fun c => c.chunk_index) ∘
        (fun p => (⟨mkObservationSequence p.2, p.1⟩ : DitherChunk)))
        = Prod.fst := rfl
    rw [this, List.enum_map_fst, List.enum_length]
  case _ =>
    intro c hc
    rcases List.mem_map.mp hc with ⟨p, hp, rfl⟩
    have hP := hsubmem p.2 (snd_mem_of_mem_enum hp)
    have hobs : (⟨mkObservationSequence p.2, p.1⟩ :
        DitherChunk).obs_seq.observations = p.2 := by
      simpa [mkObservationSequence] using hP.2.2.1
    rw [hobs]
    refine ⟨hP.1, hP.2.1.imp ?_⟩
    intro a b hab
    unfold ditherStepR at hab
    omega
  case _ =>
    have hobsmap : (allC.enum.map
          (fun p => (⟨mkObservationSequence p.2, p.1⟩ : DitherChunk))).map
            (fun c => c.obs_seq.observations) = allC := by
      rw [List.map_map]
      have : ∀ p ∈ allC.enum,
          ((fun c => c.obs_seq.observations) ∘
            (fun p => (⟨mkObservationSequence p.2, p.1⟩ : DitherChunk))) p
          = Prod.snd p := by
        intro p hp
        have := (hsubmem p.2 (snd_mem_of_mem_enum hp)).2.2.1
        simpa [mkObservationSequence] using this
      rw [List.map_congr_left this, List.enum_map_snd]
    have hBm : List.Chain' chunkBoundaryB
        ((allC.enum.map (fun p => (⟨mkObservationSequence p.2, p.1⟩ :
          DitherChunk))).map (fun c => c.obs_seq.observations)) := by
      rw [hobsmap]
      exact hchainB
    have hBc := (List.chain'_map
      (fun c : DitherChunk => c.obs_seq.observations)).mp hBm
    refine List.Chain'.imp ?_ hBc
    intro c d h a b ha hb
    have hstep := h a b ha hb
    unfold ditherStepR at hstep
    omega

/-- Claim C1: for every non-empty time-ordered single-target exposure list,
the dither-chunk grouping succeeds, the concatenation of the chunk
observation lists in chunk-index order reproduces the input exactly (chunk
indices are 0,1,2,... in list order), and inside every chunk each
observation's dither index is the previous one plus 1. -/
theorem dither_chunks_partition_and_increments (obs_seq : List Observation)
    (name : String) (hne : obs_seq ≠ [])
    (htgt : ∀ o ∈ obs_seq, o.target = name)
    (hsorted : obs_seq.Pairwise (fun a b => a.start_time_ut ≤ b.start_time_ut)) :
    ∃ chunks,
      get_dither_chunks_for_target obs_seq name = .ok chunks ∧
      (chunks.map (fun c => c.obs_seq.observations)).flatten = obs_seq ∧
      chunks.map (fun c => c.chunk_index) = List.range chunks.length ∧
      ∀ c ∈ chunks, List.Chain' (fun a b => b.dither = a.dither + 1)
        c.obs_seq.observations := by
  obtain ⟨chunks, h1, h2, h3, h4, -⟩ :=
    get_dither_chunks_spec obs_seq name hne htgt hsorted
  exact ⟨chunks, h1, h2, h3, fun c hc => (h4 c hc).2⟩

/-- Two-observation single-target input used to instantiate the C1 theorem. -/
def demoObsC1 : List Observation := [⟨"NGC1", 0, 1⟩, ⟨"NGC1", 1, 2⟩]

/-- Witness for the C1 theorem at a concrete input. -/
theorem dither_chunks_partition_and_increments_witness :
    ∃ chunks,
      get_dither_chunks_for_target demoObsC1 "NGC1" = .ok chunks ∧
      (chunks.map (fun c => c.obs_seq.observations)).flatten = demoObsC1 ∧
      chunks.map (fun c => c.chunk_index) = List.range chunks.length ∧
      ∀ c ∈ chunks, List.Chain' (fun a b => b.dither = a.dither + 1)
        c.obs_seq.observations :=
  dither_chunks_partition_and_increments demoObsC1 "NGC1"
    (by decide) (by decide) (by decide)

deriving instance DecidableEq for Except

/-- The spec example: dither indices [1,2,3,1,2] for target M52,
time-ordered. -/
def demoM52 : List Observation :=
  [⟨"M52", 0, 1⟩, ⟨"M52", 1, 2⟩, ⟨"M52", 2, 3⟩, ⟨"M52", 3, 1⟩, ⟨"M52", 4, 2⟩]

/-- Claim C2: a consecutive same-target observation continues the current
chunk exactly when its dither index is the previous one plus 1: within every
chunk adjacent dither indices step by +1, and across every chunk boundary
the +1 test fails (chunk indices are assigned 0-based in order).  On the
concrete dither sequence [1,2,3,1,2] for target M52 this produces exactly
two chunks, the first three observations and the last two. -/
theorem dither_chunk_boundary_rule_and_example (obs_seq : List Observation)
    (name : String) (hne : obs_seq ≠ [])
    (htgt : ∀ o ∈ obs_seq, o.target = name)
    (hsorted : obs_seq.Pairwise (fun a b => a.start_time_ut ≤ b.start_time_ut)) :
    (∃ chunks,
      get_dither_chunks_for_target obs_seq name = .ok chunks ∧
      chunks.map (fun c => c.chunk_index) = List.range chunks.length ∧
      (∀ c ∈ chunks, List.Chain' (fun a b => b.dither = a.dither + 1)
          c.obs_seq.observations) ∧
      List.Chain' (fun c d => ∀ a b,
          c.obs_seq.observations.getLast? = some a →
          d.obs_seq.observations.head? = some b →
          ¬ b.dither = a.dither + 1) chunks) ∧
    get_dither_chunks_for_target demoM52 "M52" =
      .ok [⟨⟨[⟨"M52", 0, 1⟩, ⟨"M52", 1, 2⟩, ⟨"M52", 2, 3⟩]⟩, 0⟩,
           ⟨⟨[⟨"M52", 3, 1⟩, ⟨"M52", 4, 2⟩]⟩, 1⟩] := by
  constructor
  · obtain ⟨chunks, h1, -, h3, h4, h5⟩ :=
      get_dither_chunks_spec obs_seq name hne htgt hsorted
    exact ⟨chunks, h1, h3, fun c hc => (h4 c hc).2, h5⟩
  · decide

/-- Witness for the C2 theorem at a concrete input. -/
theorem dither_chunk_boundary_rule_and_example_witness :
    (∃ chunks,
      get_dither_chunks_for_target demoM52 "M52" = .ok chunks ∧
      chunks.map (fun c => c.chunk_index) = List.range chunks.length ∧
      (∀ c ∈ chunks, List.Chain' (fun a b => b.dither = a.dither + 1)
          c.obs_seq.observations) ∧
      List.Chain' (fun c d => ∀ a b,
          c.obs_seq.observations.getLast? = some a →
          d.obs_seq.observations.head? = some b →
          ¬ b.dither = a.dither + 1) chunks) ∧
    get_dither_chunks_for_target demoM52 "M52" =
      .ok [⟨⟨[⟨"M52", 0, 1⟩, ⟨"M52", 1, 2⟩, ⟨"M52", 2, 3⟩]⟩, 0⟩,
           ⟨⟨[⟨"M52", 3, 1⟩, ⟨"M52", 4, 2⟩]⟩, 1⟩] :=
  dither_chunk_boundary_rule_and_example demoM52 "M52"
    (by decide) (by decide) (by decide)

/-! ## Time windows (classes/obs_timeslot.py, classes/observation.py)

`ObsTimeslot.from_start_and_time` computes
`end_time = start_time + timedelta(seconds=int(exptime))`: the duration is
truncated toward zero by Python's `int()`, which raises on NaN or infinite
floats.  `Observation.__post_init__` assigns `timeslot = None` only when
`math.isnan(self.exptime)`; any other finite value (positive, zero or
negative) constructs a timeslot.  Instants are modelled as rational seconds
since an arbitrary epoch.
-/

/-- Python float for the cases where the code branches on NaN/infinity. -/
inductive PyFloat where
  | nan
  | inf
  | ninf
  | fin (q : ℚ)
deriving DecidableEq

/-- math.isnan. -/
def PyFloat.isNan : PyFloat → Bool
  | .nan => true
  | _ => false

/-- Python `int()` on a float: truncation toward zero for finite values
(`Int.tdiv` of numerator by denominator), ValueError on NaN and
OverflowError on infinities. -/
def pyInt : PyFloat → Except String ℤ
  | .nan => .error "ValueError: cannot convert float NaN to integer"
  | .inf => .error "OverflowError: cannot convert float infinity to integer"
  | .ninf => .error "OverflowError: cannot convert float infinity to integer"
  | .fin q => .ok (q.num.tdiv (q.den : ℤ))

/-- ObsTimeslot (obs_timeslot.py): start and end instants. -/
structure ObsTimeslot where
  start_time : ℚ
  end_time : ℚ
deriving DecidableEq

/-- ObsTimeslot.from_start_and_time (obs_timeslot.py L22-25):
`end_time = start_time + timedelta(seconds=int(exptime))`. -/
def ObsTimeslot.from_start_and_time (start_time : ℚ) (exptime : PyFloat) :
    Except String ObsTimeslot :=
  (pyInt exptime).map (fun s => ⟨start_time, start_time + (s : ℚ)⟩)

/-- Observation.__post_init__ (observation.py L148-153): the timeslot is
None when exptime is NaN, and `ObsTimeslot.from_start_and_time` otherwise. -/
def observationTimeslot (start_time_ut : ℚ) (exptime : PyFloat) :
    Except String (Option ObsTimeslot) :=
  if exptime.isNan then .ok none
  else (ObsTimeslot.from_start_and_time start_time_ut exptime).map some

/-- Explicitly reduced rational 3/2, used as a concrete non-integer duration. -/
def threeHalves : ℚ := ⟨3, 2, by norm_num, by norm_num⟩

theorem threeHalves_eq : threeHalves = 3 / 2 := by
  unfold threeHalves
  rw [Rat.mk'_eq_divInt]
  norm_num [Rat.divInt_eq_div]

/-- Claim C4 counterexample: for start 0 and the finite positive non-integer
duration 3/2, the constructed window ends at 1, not at start + 3/2: the
source truncates the duration with `int(exptime)` before adding it. -/
theorem from_start_and_time_fractional_cex :
    ObsTimeslot.from_start_and_time 0 (.fin threeHalves) = .ok ⟨0, 1⟩ ∧
    (0 : ℚ) + threeHalves ≠ 1 := by
  constructor
  · have h1 : ObsTimeslot.from_start_and_time 0 (.fin threeHalves)
        = .ok ⟨0, 0 + ((1 : ℤ) : ℚ)⟩ := rfl
    rw [h1]
    norm_num
  · rw [threeHalves_eq]
    norm_num

/-- Claim C4 amended: for every start instant and finite positive duration d
the window construction succeeds with end = start + (d truncated toward
zero); in particular end = start + d holds exactly when d is an integer. -/
theorem from_start_and_time_truncated_end (start : ℚ) (q : ℚ) (_hq : 0 < q) :
    ObsTimeslot.from_start_and_time start (.fin q)
      = .ok ⟨start, start + ((q.num.tdiv (q.den : ℤ) : ℤ) : ℚ)⟩ ∧
    (q.den = 1 → ((q.num.tdiv (q.den : ℤ) : ℤ) : ℚ) = q) := by
  refine ⟨rfl, ?_⟩
  intro hden
  rw [hden]
  simp only [Nat.cast_one, Int.tdiv_one]
  have h2 := Rat.num_div_den q
  rw [hden] at h2
  simpa using h2

/-- Witness for the amended C4 theorem at start 5 and duration 3/2. -/
theorem from_start_and_time_truncated_end_witness :
    (0 : ℚ) < threeHalves ∧
    ObsTimeslot.from_start_and_time 5 (.fin threeHalves)
      = .ok ⟨5, 5 + ((threeHalves.num.tdiv (threeHalves.den : ℤ) : ℤ) : ℚ)⟩ :=
  ⟨by rw [threeHalves_eq]; norm_num,
   (from_start_and_time_truncated_end 5 threeHalves
      (by rw [threeHalves_eq]; norm_num)).1⟩

/-- Claim C5 counterexample: a zero duration is not a finite positive
number, yet the construction succeeds and the observation receives a
timeslot [0, 0] rather than none. -/
theorem observation_timeslot_zero_duration_cex :
    observationTimeslot 0 (.fin 0) = .ok (some ⟨0, 0⟩) ∧
    ObsTimeslot.from_start_and_time 0 (.fin 0) = .ok ⟨0, 0⟩ := by
  constructor
  · have h1 : observationTimeslot 0 (.fin 0)
        = .ok (some ⟨0, 0 + ((0 : ℤ) : ℚ)⟩) := rfl
    rw [h1]
    norm_num
  · have h1 : ObsTimeslot.from_start_and_time 0 (.fin 0)
        = .ok ⟨0, 0 + ((0 : ℤ) : ℚ)⟩ := rfl
    rw [h1]
    norm_num

/-- Claim C5 amended: the observation ends up with no timeslot exactly for a
NaN duration (and that case does not raise); an infinite duration raises
OverflowError out of `int()`; every finite duration, positive or not,
successfully constructs a window ending at start + trunc(duration). -/
theorem observation_timeslot_cases (start : ℚ) (x : PyFloat) :
    (observationTimeslot start x = .ok none ↔ x = .nan) ∧
    ((x = .inf ∨ x = .ninf) → observationTimeslot start x
      = .error "OverflowError: cannot convert float infinity to integer") ∧
    (∀ q, x = .fin q → observationTimeslot start x
      = .ok (some ⟨start, start + ((q.num.tdiv (q.den : ℤ) : ℤ) : ℚ)⟩)) := by
  cases x with
  | nan => exact ⟨by simp [observationTimeslot, PyFloat.isNan], by simp, by simp⟩
  | inf =>
    refine ⟨?_, ?_, by simp⟩
    · simp [observationTimeslot, PyFloat.isNan, ObsTimeslot.from_start_and_time,
        pyInt, Except.map]
    · intro
      simp [observationTimeslot, PyFloat.isNan, ObsTimeslot.from_start_and_time,
        pyInt, Except.map]
  | ninf =>
    refine ⟨?_, ?_, by simp⟩
    · simp [observationTimeslot, PyFloat.isNan, ObsTimeslot.from_start_and_time,
        pyInt, Except.map]
    · intro
      simp [observationTimeslot, PyFloat.isNan, ObsTimeslot.from_start_and_time,
        pyInt, Except.map]
  | fin q =>
    refine ⟨?_, by simp, ?_⟩
    · simp [observationTimeslot, PyFloat.isNan, ObsTimeslot.from_start_and_time,
        pyInt, Except.map]
    · intro p hp
      cases hp
      rfl

/-- Witness for the amended C5 theorem at a negative duration -7/2
(truncated toward zero to -3). -/
theorem observation_timeslot_cases_witness :
    observationTimeslot 4 (.fin (-threeHalves))
      = .ok (some ⟨4, 4 + (((-threeHalves).num.tdiv (((-threeHalves).den : ℤ)) : ℤ) : ℚ)⟩) :=
  (observation_timeslot_cases 4 (.fin (-threeHalves))).2.2 (-threeHalves) rfl

/-! ## Robust statistics (calculations/clipping.py, classes/star_model_fit.py,
classes/guider_sequence.py)

The two clipping primitives wrap `astropy.stats.sigma_clip`.  Values are
exact rationals; the square root needed for the standard deviation is the
abstract `sq` argument (see the header).
-/

/-- Comparison used to model numpy sorting of float values. -/
def qLe (a b : ℚ) : Bool := decide (a ≤ b)

/-- np.median on a list of values: sort, take the middle element for odd
length and the mean of the two middle elements for even length.  The empty
case is given the junk value 0; every use below checks emptiness first. -/
def npMedian (l : List ℚ) : ℚ :=
  let s := stableSort qLe l
  if l.length % 2 = 1 then s.getD (l.length / 2) 0
  else (s.getD (l.length / 2 - 1) 0 + s.getD (l.length / 2) 0) / 2

/-- np.mean. -/
def npMean (l : List ℚ) : ℚ := l.sum / l.length

/-- Population variance (square of np.std with the default ddof=0). -/
def npVariance (l : List ℚ) : ℚ := npMean (l.map (fun x => (x - npMean l) ^ 2))

/-- Modelled from the spec: one round of `astropy.stats.sigma_clip` (an
external library, not part of this repository), with astropy defaults
cenfunc=median and stdfunc=std.  The center and deviation are computed from
the currently kept values, and a value is newly rejected when it lies
strictly outside [center - sigma*std, center + sigma*std]; already rejected
values stay rejected.  The mask entries are keep-flags, matching the
`~clipped.mask` convention of clipping.py. -/
def sigmaClipStep (sq : ℚ → ℚ) (sigma : ℚ) (values : List ℚ)
    (mask : List Bool) : List Bool :=
  let kept := maskedSelect values mask
  let c := npMedian kept
  let s := sq (npVariance kept)
  (values.zip mask).map
    (fun p => p.2 && !(decide (p.1 < c - sigma * s) || decide (p.1 > c + sigma * s)))

/-- Modelled from the spec: the iteration of `astropy.stats.sigma_clip`,
which repeats `sigmaClipStep` until no further value is rejected, up to the
astropy default maxiters=5. -/
def sigmaClipLoop (sq : ℚ → ℚ) (sigma : ℚ) (values : List ℚ) :
    ℕ → List Bool → List Bool
  | 0, mask => mask
  | n + 1, mask =>
    let m := sigmaClipStep sq sigma values mask
    if m = mask then mask else sigmaClipLoop sq sigma values n m

/-- Modelled from the spec: `astropy.stats.sigma_clip(values, sigma=...)`
as used by clipping.py, returning the keep-mask `~clipped.mask`. -/
def sigma_clip_keep (sq : ℚ → ℚ) (values : List ℚ) (sigma : ℚ) : List Bool :=
  sigmaClipLoop sq sigma values 5 (values.map fun _ => true)

/-- get_clipping_kept_mask (clipping.py L29-41): keep everything when
sigmaclip_val is None, otherwise delegate to sigma_clip. -/
def get_clipping_kept_mask (sq : ℚ → ℚ) (values : List ℚ)
    (sigmaclip_val : Option ℚ) : List Bool :=
  match sigmaclip_val with
  | none => values.map fun _ => true
  | some sigma => sigma_clip_keep sq values sigma

/-- get_clipping_kept_mask_by_distance (clipping.py L9-26): keep everything
when sigmaclip_val is None; empty input gives an empty mask and a single
point is always kept; otherwise sigma-clip the Euclidean distances
(np.hypot) from the componentwise median point. -/
def get_clipping_kept_mask_by_distance (sq : ℚ → ℚ)
    (centroids : List (ℚ × ℚ)) (sigmaclip_val : Option ℚ) : List Bool :=
  match sigmaclip_val with
  | none => centroids.map fun _ => true
  | some sigma =>
    if centroids.length = 0 then []
    else if centroids.length = 1 then [true]
    else
      let medx := npMedian (centroids.map Prod.fst)
      let medy := npMedian (centroids.map Prod.snd)
      let d := centroids.map
        (fun c => sq ((c.1 - medx) ^ 2 + (c.2 - medy) ^ 2))
      sigma_clip_keep sq d sigma

/-- Parameters of the fitted astropy compound model (Gaussian2D + Const2D)
as read back by star_model_fit.py; the nonlinear fitter that produces them
is the external collaborator. -/
structure Gaussian2DFitParams where
  amplitude_0 : ℚ
  x_mean_0 : ℚ
  y_mean_0 : ℚ
  x_stddev_0 : ℚ
  y_stddev_0 : ℚ
deriving DecidableEq

/-- GuideStarModel (star_model_fit.py): the fit inputs it retains plus the
fitted model parameters. -/
structure GuideStarModel where
  x_cent_in : ℚ
  y_cent_in : ℚ
  size_in : ℚ
  exptime : ℚ
  model : Gaussian2DFitParams
deriving DecidableEq

/-- GUIDER_PIXSCALE (constants.py): 0.533 arcsec per pixel. -/
def GUIDER_PIXSCALE : ℚ := 0.533

/-- np.pi as the exact value of the IEEE double nearest pi. -/
def np_pi : ℚ := 884279719003555 / 281474976710656

/-- GuideStarModel.x_cent: fitted x center mapped back to frame coordinates. -/
def GuideStarModel.x_cent (m : GuideStarModel) : ℚ :=
  m.model.x_mean_0 + m.x_cent_in - m.size_in / 2

/-- GuideStarModel.y_cent: fitted y center mapped back to frame coordinates. -/
def GuideStarModel.y_cent (m : GuideStarModel) : ℚ :=
  m.model.y_mean_0 + m.y_cent_in - m.size_in / 2

/-- GuideStarModel.fwhm_pix: `2.355 * min(x_std, y_std)` (the np.sqrt line
above it in the source is overwritten by the min). -/
def GuideStarModel.fwhm_pix (m : GuideStarModel) : ℚ :=
  2.355 * min m.model.x_stddev_0 m.model.y_stddev_0

/-- GuideStarModel.fwhm_arcsec. -/
def GuideStarModel.fwhm_arcsec (m : GuideStarModel) : ℚ :=
  m.fwhm_pix * GUIDER_PIXSCALE

/-- GuideStarModel.total_flux_rate: `2*pi*x_std*y_std*amplitude / exptime`. -/
def GuideStarModel.total_flux_rate (m : GuideStarModel) : ℚ :=
  2 * np_pi * m.model.x_stddev_0 * m.model.y_stddev_0 * m.model.amplitude_0
    / m.exptime

/-! GuiderSequence statistics accessors (classes/guider_sequence.py L85-130),
over the per-frame model list `self.models`.  Each Python function has an
optional `sigmaclip_val` argument; the embedded function takes it
explicitly, and the Python default value is recorded in a companion
`..._default_sigma` constant.  The "no value" results `(np.nan, np.nan)`
are modelled as `none`; a returned pair is (mean, std) with std the square
root (`sq`) of the population variance, exactly np.mean and np.std. -/

/-- Default of `get_flux_rates(self, sigmaclip_val: Optional[float] = None)`. -/
def get_flux_rates_default_sigma : Option ℚ := none

/-- get_flux_rates: all flux rates for None, otherwise the value-clipped
subset (the recursive `get_flux_rates(sigmaclip_val=None)` call inlined). -/
def get_flux_rates (sq : ℚ → ℚ) (models : List GuideStarModel)
    (sigmaclip_val : Option ℚ) : List ℚ :=
  match sigmaclip_val with
  | none => models.map GuideStarModel.total_flux_rate
  | some sigma =>
    let flux_rates := models.map GuideStarModel.total_flux_rate
    maskedSelect flux_rates (get_clipping_kept_mask sq flux_rates (some sigma))

/-- Default of `get_flux_rate_stats(self, sigmaclip_val: Optional[float] = None)`. -/
def get_flux_rate_stats_default_sigma : Option ℚ := none

/-- get_flux_rate_stats: (nan, nan) — modelled none — on an empty selection,
otherwise (np.mean, np.std). -/
def get_flux_rate_stats (sq : ℚ → ℚ) (models : List GuideStarModel)
    (sigmaclip_val : Option ℚ) : Option (ℚ × ℚ) :=
  let flux_rates := get_flux_rates sq models sigmaclip_val
  if flux_rates.length = 0 then none
  else some (npMean flux_rates, sq (npVariance flux_rates))

/-- Default of `get_fwhms_arcsec(self, sigmaclip_val: Optional[float] = 2.5)`. -/
def get_fwhms_arcsec_default_sigma : Option ℚ := some 2.5

/-- get_fwhms_arcsec: all FWHM values for None, otherwise the value-clipped
subset. -/
def get_fwhms_arcsec (sq : ℚ → ℚ) (models : List GuideStarModel)
    (sigmaclip_val : Option ℚ) : List ℚ :=
  match sigmaclip_val with
  | none => models.map GuideStarModel.fwhm_arcsec
  | some sigma =>
    let fwhms := models.map GuideStarModel.fwhm_arcsec
    maskedSelect fwhms (get_clipping_kept_mask sq fwhms (some sigma))

/-- Default of `get_centroids(self, sigmaclip_val: Optional[float] = 2.5)`. -/
def get_centroids_default_sigma : Option ℚ := some 2.5

/-- get_centroids: per-frame fitted (x, y) pairs, distance-clipped unless
sigmaclip_val is None. -/
def get_centroids (sq : ℚ → ℚ) (models : List GuideStarModel)
    (sigmaclip_val : Option ℚ) : List (ℚ × ℚ) :=
  match sigmaclip_val with
  | none => models.map (fun m => (m.x_cent, m.y_cent))
  | some sigma =>
    let centroids := models.map (fun m => (m.x_cent, m.y_cent))
    maskedSelect centroids
      (get_clipping_kept_mask_by_distance sq centroids (some sigma))

/-- Default of `get_centroid_stats(self, sigmaclip_val: Optional[float] = 2.5)`. -/
def get_centroid_stats_default_sigma : Option ℚ := some 2.5

/-- get_centroid_stats: none — the (nan, nan) arrays — on an empty
selection, otherwise componentwise (np.mean(axis=0), np.std(axis=0)). -/
def get_centroid_stats (sq : ℚ → ℚ) (models : List GuideStarModel)
    (sigmaclip_val : Option ℚ) : Option ((ℚ × ℚ) × (ℚ × ℚ)) :=
  let centroids := get_centroids sq models sigmaclip_val
  if centroids.length = 0 then none
  else some ((npMean (centroids.map Prod.fst), npMean (centroids.map Prod.snd)),
    (sq (npVariance (centroids.map Prod.fst)),
     sq (npVariance (centroids.map Prod.snd))))

/-- Default of `get_fwhm_stats(self, sigmaclip_val: Optional[float] = 2.5)`. -/
def get_fwhm_stats_default_sigma : Option ℚ := some 2.5

/-- get_fwhm_stats: none on an empty selection, otherwise (np.mean, np.std). -/
def get_fwhm_stats (sq : ℚ → ℚ) (models : List GuideStarModel)
    (sigmaclip_val : Option ℚ) : Option (ℚ × ℚ) :=
  let fwhms := get_fwhms_arcsec sq models sigmaclip_val
  if fwhms.length = 0 then none
  else some (npMean fwhms, sq (npVariance fwhms))

theorem npMedian_singleton (v : ℚ) : npMedian [v] = v := by
  simp [npMedian, stableSort, insertSorted]

theorem npVariance_singleton (v : ℚ) : npVariance [v] = 0 := by
  simp [npVariance, npMean]

theorem sigmaClipStep_singleton (sq : ℚ → ℚ) (hsq : sq 0 = 0) (sigma v : ℚ) :
    sigmaClipStep sq sigma [v] [true] = [true] := by
  simp [sigmaClipStep, maskedSelect, npMedian_singleton, npVariance_singleton,
    hsq, lt_irrefl]

theorem sigma_clip_keep_singleton (sq : ℚ → ℚ) (hsq : sq 0 = 0)
    (sigma v : ℚ) : sigma_clip_keep sq [v] sigma = [true] := by
  simp [sigma_clip_keep, sigmaClipLoop, sigmaClipStep_singleton sq hsq]

theorem sigma_clip_keep_nil (sq : ℚ → ℚ) (sigma : ℚ) :
    sigma_clip_keep sq [] sigma = [] := by
  simp [sigma_clip_keep, sigmaClipLoop, sigmaClipStep, maskedSelect]

/-- Claim C7: on inputs of size 0 or 1 and for every sigma value (None
included), both clipping primitives return an all-true keep-mask of the same
length as the input.  The only fact assumed about the abstract square root
is sq 0 = 0. -/
theorem clipping_small_input_all_true (sq : ℚ → ℚ) (hsq : sq 0 = 0)
    (sigmaclip_val : Option ℚ) (values : List ℚ) (centroids : List (ℚ × ℚ))
    (hv : values.length ≤ 1) (hc : centroids.length ≤ 1) :
    get_clipping_kept_mask sq values sigmaclip_val
      = List.replicate values.length true ∧
    get_clipping_kept_mask_by_distance sq centroids sigmaclip_val
      = List.replicate centroids.length true := by
  constructor
  · rcases values with _ | ⟨v, _ | ⟨w, t⟩⟩
    · cases sigmaclip_val with
      | none => rfl
      | some sigma => simp [get_clipping_kept_mask, sigma_clip_keep_nil]
    · cases sigmaclip_val with
      | none => rfl
      | some sigma =>
        simp [get_clipping_kept_mask, sigma_clip_keep_singleton sq hsq]
    · simp at hv
  · rcases centroids with _ | ⟨p, _ | ⟨q, t⟩⟩
    · cases sigmaclip_val with
      | none => rfl
      | some sigma => simp [get_clipping_kept_mask_by_distance]
    · cases sigmaclip_val with
      | none => rfl
      | some sigma => simp [get_clipping_kept_mask_by_distance]
    · simp at hc

/-- Witness for the C7 theorem: one value and one centroid, sigma 2.5,
with the zero square root function. -/
theorem clipping_small_input_all_true_witness :
    get_clipping_kept_mask (fun _ => 0) [7] (some 2.5)
      = List.replicate ([(7 : ℚ)].length) true ∧
    get_clipping_kept_mask_by_distance (fun _ => 0) [(3, 4)] (some 2.5)
      = List.replicate ([((3 : ℚ), (4 : ℚ))].length) true :=
  clipping_small_input_all_true (fun _ => 0) rfl (some 2.5) [7] [(3, 4)]
    (by decide) (by decide)

/-- Claim C8: for a sequence whose time window matched zero frames (empty
model list), every stats accessor returns the no-value result (modelled
none) for every sigma argument, the defaults included, and in particular
does not raise. -/
theorem empty_sequence_stats_no_value (sq : ℚ → ℚ)
    (sigmaclip_val : Option ℚ) :
    get_centroid_stats sq [] sigmaclip_val = none ∧
    get_fwhm_stats sq [] sigmaclip_val = none ∧
    get_flux_rate_stats sq [] sigmaclip_val = none ∧
    get_centroid_stats sq [] get_centroid_stats_default_sigma = none ∧
    get_fwhm_stats sq [] get_fwhm_stats_default_sigma = none ∧
    get_flux_rate_stats sq [] get_flux_rate_stats_default_sigma = none := by
  have hcen : ∀ s, get_centroids sq [] s = [] := by
    intro s
    cases s with
    | none => rfl
    | some sigma => simp [get_centroids, maskedSelect]
  have hfw : ∀ s, get_fwhms_arcsec sq [] s = [] := by
    intro s
    cases s with
    | none => rfl
    | some sigma => simp [get_fwhms_arcsec, maskedSelect]
  have hfl : ∀ s, get_flux_rates sq [] s = [] := by
    intro s
    cases s with
    | none => rfl
    | some sigma => simp [get_flux_rates, maskedSelect]
  refine ⟨?_, ?_, ?_, ?_, ?_, ?_⟩ <;>
    simp [get_centroid_stats, get_fwhm_stats, get_flux_rate_stats,
      hcen, hfw, hfl]

/-- Claim C6 amended: the centroid and FWHM operations default their clip
sigma to 2.5, but the flux-rate operations default to None, i.e. calling
get_flux_rates / get_flux_rate_stats without an explicit sigma leaves the
flux rates unclipped. -/
theorem stats_default_sigma_values :
    get_centroids_default_sigma = some (5 / 2) ∧
    get_centroid_stats_default_sigma = some (5 / 2) ∧
    get_fwhms_arcsec_default_sigma = some (5 / 2) ∧
    get_fwhm_stats_default_sigma = some (5 / 2) ∧
    get_flux_rates_default_sigma = none ∧
    get_flux_rate_stats_default_sigma = none ∧
    ∀ (sq : ℚ → ℚ) (models : List GuideStarModel),
      get_flux_rates sq models get_flux_rates_default_sigma
        = models.map GuideStarModel.total_flux_rate := by
  refine ⟨?_, ?_, ?_, ?_, rfl, rfl, fun sq models => rfl⟩ <;>
    norm_num [get_centroids_default_sigma, get_centroid_stats_default_sigma,
      get_fwhms_arcsec_default_sigma, get_fwhm_stats_default_sigma]

/-- Square-root oracle for the concrete C6 run: exact on both variances the
computation consumes (900 and 0). -/
def demoSqrt : ℚ → ℚ := fun q => if q = 900 then 30 else 0

/-- A model whose flux rate is 2*pi*amplitude: unit widths, unit exposure. -/
def demoModel (a : ℚ) : GuideStarModel := ⟨0, 0, 0, 1, ⟨a, 0, 0, 1, 1⟩⟩

/-- Nine zero-flux frames and one frame of flux rate 100. -/
def demoModels : List GuideStarModel :=
  List.replicate 9 (demoModel 0) ++ [demoModel (50 / np_pi)]

/-- The flux rates of demoModels. -/
def demoFluxesList : List ℚ := [0, 0, 0, 0, 0, 0, 0, 0, 0, 100]

/-- The keep-mask that a 2.5-sigma clip of demoFluxesList settles on. -/
def demoMask : List Bool :=
  [true, true, true, true, true, true, true, true, true, false]

theorem demoFluxes_eval :
    demoModels.map GuideStarModel.total_flux_rate = demoFluxesList := by
  simp only [demoModels, demoModel, demoFluxesList, List.replicate,
    List.map_append, List.map_cons, List.map_nil, GuideStarModel.total_flux_rate]
  norm_num [np_pi]

theorem demoMedian_eval : npMedian demoFluxesList = 0 := by
  have hs : stableSort qLe ([0, 0, 0, 0, 0, 0, 0, 0, 0, 100] : List ℚ)
      = [0, 0, 0, 0, 0, 0, 0, 0, 0, 100] := by decide
  simp only [npMedian, demoFluxesList, hs]
  norm_num [List.getD_cons_zero, List.getD_cons_succ]

theorem demoVar_eval : npVariance demoFluxesList = 900 := by
  norm_num [npVariance, npMean, demoFluxesList]

theorem demoMedian2_eval :
    npMedian ([0, 0, 0, 0, 0, 0, 0, 0, 0] : List ℚ) = 0 := by
  have hs : stableSort qLe ([0, 0, 0, 0, 0, 0, 0, 0, 0] : List ℚ)
      = [0, 0, 0, 0, 0, 0, 0, 0, 0] := by decide
  simp only [npMedian, hs]
  norm_num [List.getD_cons_zero, List.getD_cons_succ]

theorem demoVar2_eval :
    npVariance ([0, 0, 0, 0, 0, 0, 0, 0, 0] : List ℚ) = 0 := by
  norm_num [npVariance, npMean]

theorem demoStep1_eval :
    sigmaClipStep demoSqrt 2.5 demoFluxesList
      (demoFluxesList.map fun _ => true) = demoMask := by
  have hkept : maskedSelect demoFluxesList (demoFluxesList.map fun _ => true)
      = demoFluxesList := by decide
  simp only [sigmaClipStep, hkept, demoMedian_eval, demoVar_eval]
  norm_num [demoSqrt, demoFluxesList, demoMask]

theorem demoStep2_eval :
    sigmaClipStep demoSqrt 2.5 demoFluxesList demoMask = demoMask := by
  have hkept : maskedSelect demoFluxesList demoMask
      = ([0, 0, 0, 0, 0, 0, 0, 0, 0] : List ℚ) := by decide
  simp only [sigmaClipStep, hkept, demoMedian2_eval, demoVar2_eval]
  norm_num [demoSqrt, demoFluxesList, demoMask]

theorem demoKeepMask_eval :
    sigma_clip_keep demoSqrt demoFluxesList 2.5 = demoMask := by
  unfold sigma_clip_keep sigmaClipLoop
  rw [demoStep1_eval]
  rw [if_neg (by decide)]
  unfold sigmaClipLoop
  rw [demoStep2_eval, if_pos rfl]

/-- Claim C6 counterexample: get_flux_rate_stats called with its Python
default sigma returns the unclipped statistics (10, 30) on a list of flux
rates [0 x 9, 100], while an explicit 2.5-sigma call returns (0, 0): the
flux-rate accessors do not clip by default, refuting the claim that every
statistics operation defaults to a 2.5-sigma clip. -/
theorem flux_rate_stats_default_unclipped_cex :
    get_flux_rate_stats demoSqrt demoModels get_flux_rate_stats_default_sigma
      = some (10, 30) ∧
    get_flux_rate_stats demoSqrt demoModels (some 2.5) = some (0, 0) ∧
    ((10 : ℚ), (30 : ℚ)) ≠ ((0 : ℚ), (0 : ℚ)) := by
  refine ⟨?_, ?_, by norm_num⟩
  · have hfr : get_flux_rates demoSqrt demoModels
        get_flux_rate_stats_default_sigma = demoFluxesList := by
      simp [get_flux_rates, get_flux_rate_stats_default_sigma, demoFluxes_eval]
    simp only [get_flux_rate_stats, hfr]
    rw [if_neg (by decide)]
    rw [demoVar_eval]
    norm_num [npMean, demoFluxesList, demoSqrt]
  · have hfr : get_flux_rates demoSqrt demoModels (some 2.5)
        = ([0, 0, 0, 0, 0, 0, 0, 0, 0] : List ℚ) := by
      simp only [get_flux_rates, demoFluxes_eval, get_clipping_kept_mask,
        demoKeepMask_eval]
      decide
    simp only [get_flux_rate_stats, hfr]
    rw [if_neg (by decide)]
    rw [demoVar2_eval]
    norm_num [npMean, demoSqrt]

/-! ## Fitting loop of GuiderSequence._fit_all (classes/guider_sequence.py L37-52)

For each frame the loop calls `gf.get_model_fit(x_guess, y_guess)` — which
loads the frame's pixel data — and appends the model; then, unless
`use_prev_as_guess` is false and the fit succeeded (the `continue`), it
overwrites the guess with the fitted center and calls `gf.clear_data()`.
The nonlinear fit inside `get_model_fit` is the external astropy
collaborator, abstracted as a function from the frame identifier and the
guess to the derived quantities `_fit_all` reads back. -/

/-- The quantities of a fitted GuideStarModel that `_fit_all` reads:
the frame-coordinate center and the failure flag. -/
structure FitResult where
  x_cent : ℚ
  y_cent : ℚ
  has_failed : Bool
deriving DecidableEq

/-- Per-frame record of one `_fit_all` iteration: the guess passed to
`get_model_fit`, the model obtained, and whether the frame still holds its
pixel data when the loop ends (get_model_fit loads it; clear_data, when
reached, releases it; later iterations never touch this frame again). -/
structure FrameFitTrace where
  x_guess : ℚ
  y_guess : ℚ
  model : FitResult
  data_loaded_after : Bool
deriving DecidableEq

/-- GuiderSequence._fit_all: the loop over `self.frames`, producing the
per-frame trace.  The branch structure is the source's:
`if not use_prev_as_guess and not m.has_failed: continue` skips both the
guess update and the `clear_data` call. -/
def fitAllTrace (fit : ℕ → ℚ → ℚ → FitResult) (use_prev_as_guess : Bool) :
    ℚ → ℚ → List ℕ → List FrameFitTrace
  | _, _, [] => []
  | x_guess, y_guess, gf :: rest =>
    let m := fit gf x_guess y_guess
    if !use_prev_as_guess && !m.has_failed then
      ⟨x_guess, y_guess, m, true⟩ ::
        fitAllTrace fit use_prev_as_guess x_guess y_guess rest
    else
      ⟨x_guess, y_guess, m, false⟩ ::
        fitAllTrace fit use_prev_as_guess m.x_cent m.y_cent rest

/-- The guess in effect after processing a prefix of the trace in default
mode: the fiducial coordinates until some fit fails, then the center of the
most recent failed fit. -/
def guessAfter (x0 y0 : ℚ) (pre : List FrameFitTrace) : ℚ × ℚ :=
  pre.foldl
    (fun g t => if t.model.has_failed then (t.model.x_cent, t.model.y_cent) else g)
    (x0, y0)

/-- Claim C3 counterexample: in default mode with fiducial guess (10, 20),
when the first frame's fit fails with center (99, 98), the second frame is
fitted with guess (99, 98), not the fiducial coordinates. -/
def demoFit : ℕ → ℚ → ℚ → FitResult := fun gf _ _ =>
  if gf = 0 then ⟨99, 98, true⟩ else ⟨11, 21, false⟩

/-- Claim C3 counterexample: the guesses actually passed for frames [0, 1]
are [(10, 20), (99, 98)]; the frame following the failed fit is not seeded
with the fiducial (10, 20). -/
theorem fit_all_fiducial_guess_cex :
    ((fitAllTrace demoFit false 10 20 [0, 1]).map
      (fun t => (t.x_guess, t.y_guess))) = [(10, 20), (99, 98)] ∧
    ((99 : ℚ), (98 : ℚ)) ≠ ((10 : ℚ), (20 : ℚ)) := by
  constructor
  · decide
  · decide

/-- Claim C3 amended: in default mode (use_prev_as_guess false) every frame
is seeded with the fiducial coordinates as long as no earlier fit has
failed; once a fit fails, subsequent frames are seeded with the center of
the most recent failed fit (`_fit_all` updates the guess also when
`m.has_failed` holds, because the `continue` guard requires a successful
fit). -/
theorem fit_all_default_guess_after_failure
    (fit : ℕ → ℚ → ℚ → FitResult) (x0 y0 : ℚ) (frames : List ℕ)
    (i : ℕ) (t : FrameFitTrace)
    (h : (fitAllTrace fit false x0 y0 frames)[i]? = some t) :
    t.x_guess = (guessAfter x0 y0 ((fitAllTrace fit false x0 y0 frames).take i)).1 ∧
    t.y_guess = (guessAfter x0 y0 ((fitAllTrace fit false x0 y0 frames).take i)).2 := by
  induction frames generalizing x0 y0 i with
  | nil => simp [fitAllTrace] at h
  | cons gf rest ih =>
    by_cases hfail : (fit gf x0 y0).has_failed
    · have hunf : fitAllTrace fit false x0 y0 (gf :: rest)
          = ⟨x0, y0, fit gf x0 y0, false⟩ ::
            fitAllTrace fit false (fit gf x0 y0).x_cent
              (fit gf x0 y0).y_cent rest := by
        simp [fitAllTrace, hfail]
      rw [hunf] at h ⊢
      cases i with
      | zero =>
        simp only [List.getElem?_cons_zero, Option.some.injEq] at h
        subst h
        simp [guessAfter]
      | succ j =>
        simp only [List.getElem?_cons_succ] at h
        have := ih (fit gf x0 y0).x_cent (fit gf x0 y0).y_cent j h
        simpa [guessAfter, hfail] using this
    · have hunf : fitAllTrace fit false x0 y0 (gf :: rest)
          = ⟨x0, y0, fit gf x0 y0, true⟩ ::
            fitAllTrace fit false x0 y0 rest := by
        simp [fitAllTrace, hfail]
      rw [hunf] at h ⊢
      cases i with
      | zero =>
        simp only [List.getElem?_cons_zero, Option.some.injEq] at h
        subst h
        simp [guessAfter]
      | succ j =>
        simp only [List.getElem?_cons_succ] at h
        have := ih x0 y0 j h
        simpa [guessAfter, hfail] using this

/-- Witness for the amended C3 theorem: frame 1 of the demo run is seeded
with the failed fit's center (99, 98). -/
theorem fit_all_default_guess_after_failure_witness :
    ((fitAllTrace demoFit false 10 20 [0, 1])[1]?
        = some ⟨99, 98, ⟨11, 21, false⟩, true⟩) ∧
    ((99 : ℚ) = (guessAfter 10 20
        ((fitAllTrace demoFit false 10 20 [0, 1]).take 1)).1 ∧
     (98 : ℚ) = (guessAfter 10 20
        ((fitAllTrace demoFit false 10 20 [0, 1]).take 1)).2) :=
  ⟨by decide,
   fit_all_default_guess_after_failure demoFit 10 20 [0, 1] 1
     ⟨99, 98, ⟨11, 21, false⟩, true⟩ (by decide)⟩

/-- Claim C10: in default mode, after `_fit_all` completes a frame's pixel
buffer has been released exactly when that frame's own fit failed; every
frame whose fit succeeded still holds its loaded data. -/
theorem fit_all_default_clear_iff_failed
    (fit : ℕ → ℚ → ℚ → FitResult) (x0 y0 : ℚ) (frames : List ℕ) :
    ∀ t ∈ fitAllTrace fit false x0 y0 frames,
      t.data_loaded_after = !t.model.has_failed := by
  induction frames generalizing x0 y0 with
  | nil => intro t ht; simp [fitAllTrace] at ht
  | cons gf rest ih =>
    intro t ht
    by_cases hfail : (fit gf x0 y0).has_failed
    · rw [show fitAllTrace fit false x0 y0 (gf :: rest)
          = ⟨x0, y0, fit gf x0 y0, false⟩ ::
            fitAllTrace fit false (fit gf x0 y0).x_cent
              (fit gf x0 y0).y_cent rest from by simp [fitAllTrace, hfail]] at ht
      rcases List.mem_cons.mp ht with rfl | hmem
      · simp [hfail]
      · exact ih _ _ t hmem
    · rw [show fitAllTrace fit false x0 y0 (gf :: rest)
          = ⟨x0, y0, fit gf x0 y0, true⟩ ::
            fitAllTrace fit false x0 y0 rest from by simp [fitAllTrace, hfail]] at ht
      rcases List.mem_cons.mp ht with rfl | hmem
      · simp [hfail]
      · exact ih x0 y0 t hmem

/-- Witness for the C10 theorem: the first frame of the demo run failed and
its buffer is released. -/
theorem fit_all_default_clear_iff_failed_witness :
    ((⟨10, 20, ⟨99, 98, true⟩, false⟩ : FrameFitTrace)
        ∈ fitAllTrace demoFit false 10 20 [0, 1]) ∧
    ((⟨10, 20, ⟨99, 98, true⟩, false⟩ : FrameFitTrace).data_loaded_after
        = !(⟨10, 20, ⟨99, 98, true⟩, false⟩ : FrameFitTrace).model.has_failed) :=
  ⟨by decide,
   fit_all_default_clear_iff_failed demoFit 10 20 [0, 1]
     ⟨10, 20, ⟨99, 98, true⟩, false⟩ (by decide)⟩

/-! ## Frame stacking (calculations/image_stacking.py)

The first line of `image_stacking.py` imports, from `.clipping`, the
name `get_clipped_mask_by_distance`, which clipping.py does not define:
its function is `get_clipping_kept_mask_by_distance`, of identical
signature, so loading the module raises ImportError and `stack_frames` can
never execute.  The embedding below resolves that import to the function
clipping.py does define and embeds the body of `stack_frames` faithfully,
so the algorithm itself can be checked against the spec. -/

/-- A 2-D float image: row count, column count, and the pixel values. -/
structure QImage where
  ny : ℕ
  nx : ℕ
  px : ℕ → ℕ → ℚ

/-- The two attributes of GuiderFrame that stack_frames reads: the lazily
loaded pixel grid and the exposure time. -/
structure GuiderFrameData where
  data : QImage
  exptime : ℚ

/-- np.min on a non-empty list (0 on empty, never consumed there). -/
def npMin (l : List ℚ) : ℚ :=
  match l with
  | [] => 0
  | x :: xs => xs.foldl min x

/-- np.max on a non-empty list (0 on empty, never consumed there). -/
def npMax (l : List ℚ) : ℚ :=
  match l with
  | [] => 0
  | x :: xs => xs.foldl max x

/-- np.round: round half to even. -/
def npRound (q : ℚ) : ℤ :=
  if q - (⌊q⌋ : ℚ) < 1 / 2 then ⌊q⌋
  else if 1 / 2 < q - (⌊q⌋ : ℚ) then ⌊q⌋ + 1
  else if ⌊q⌋ % 2 = 0 then ⌊q⌋ else ⌊q⌋ + 1

/-- One `stacked[y:y+fy, x:x+fx] += framedata; count[...] += 1` step of the
stacking loop: add the frame (normalized by its exposure time) into the
canvas at its integer offset and bump the coverage count there.  numpy edge
clipping of out-of-canvas slices is not modelled; the offsets constructed
below never exceed the canvas. -/
def stackStep (acc : (ℕ → ℕ → ℚ) × (ℕ → ℕ → ℕ))
    (p : GuiderFrameData × (ℚ × ℚ)) : (ℕ → ℕ → ℚ) × (ℕ → ℕ → ℕ) :=
  let fr := p.1
  let x_off_int := (npRound p.2.1).toNat
  let y_off_int := (npRound p.2.2).toNat
  ((fun i j =>
      if y_off_int ≤ i ∧ i < y_off_int + fr.data.ny ∧
         x_off_int ≤ j ∧ j < x_off_int + fr.data.nx
      then acc.1 i j + fr.data.px (i - y_off_int) (j - x_off_int) / fr.exptime
      else acc.1 i j),
   (fun i j =>
      if y_off_int ≤ i ∧ i < y_off_int + fr.data.ny ∧
         x_off_int ≤ j ∧ j < x_off_int + fr.data.nx
      then acc.2 i j + 1 else acc.2 i j))

/-- stack_frames (image_stacking.py L8-38): distance-clip the centroids,
drop the rejected frames, shift each surviving frame by its centroid minus
the minimum surviving centroid (rounded to integer pixels), accumulate the
exposure-normalized frames and a coverage count on a canvas sized by the
maximal offsets, and divide by max(count, 1).  An empty surviving set makes
the source raise (np.min of an empty array / frames_used[0]); that case is
none here. -/
def stack_frames (sq : ℚ → ℚ) (frames : List GuiderFrameData)
    (centroids : List (ℚ × ℚ)) (sigmaclip_val : Option ℚ) : Option QImage :=
  let mask := get_clipping_kept_mask_by_distance sq centroids sigmaclip_val
  let ctr_used := maskedSelect centroids mask
  let frames_used := maskedSelect frames mask
  match frames_used with
  | [] => none
  | f0 :: _ =>
    let xs := ctr_used.map Prod.fst
    let ys := ctr_used.map Prod.snd
    let x_offsets := xs.map (fun x => x - npMin xs)
    let y_offsets := ys.map (fun y => y - npMin ys)
    let x_size := (⌈npMax x_offsets⌉).toNat + f0.data.nx
    let y_size := (⌈npMax y_offsets⌉).toNat + f0.data.ny
    let r := (frames_used.zip (x_offsets.zip y_offsets)).foldl stackStep
      (fun _ _ => 0, fun _ _ => 0)
    some ⟨y_size, x_size, fun i j => r.1 i j / ((max (r.2 i j) 1 : ℕ) : ℚ)⟩

/-- Claim C9 (intended semantics of the algorithm, which the broken module
header prevents from ever running): stacking a single frame against its own
centroid returns that frame's data divided elementwise by its exposure
time, with the canvas exactly the frame's shape, for every clip sigma. -/
theorem stack_frames_single_frame (sq : ℚ → ℚ) (sigmaclip_val : Option ℚ)
    (fr : GuiderFrameData) (c : ℚ × ℚ) (i j : ℕ)
    (hi : i < fr.data.ny) (hj : j < fr.data.nx) :
    ∃ img, stack_frames sq [fr] [c] sigmaclip_val = some img ∧
      img.ny = fr.data.ny ∧ img.nx = fr.data.nx ∧
      img.px i j = fr.data.px i j / fr.exptime := by
  have hmask : get_clipping_kept_mask_by_distance sq [c] sigmaclip_val
      = [true] := by
    cases sigmaclip_val with
    | none => rfl
    | some sigma => simp [get_clipping_kept_mask_by_distance]
  have hoff : c.1 - npMin [c.1] = 0 := by simp [npMin]
  have hoffy : c.2 - npMin [c.2] = 0 := by simp [npMin]
  have hround0 : npRound 0 = 0 := by norm_num [npRound]
  have hceil0 : (⌈npMax [(0 : ℚ)]⌉ : ℤ) = 0 := by simp [npMax]
  unfold stack_frames
  rw [hmask]
  simp only [maskedSelect, List.zip_cons_cons, List.zip_nil_right,
    List.filterMap, if_pos]
  simp only [List.map_cons, List.map_nil, hoff, hoffy, hceil0, Int.toNat_zero,
    Nat.zero_add, List.foldl_cons, List.foldl_nil]
  refine ⟨_, rfl, rfl, rfl, ?_⟩
  unfold stackStep
  simp [hround0, hi, hj, Nat.zero_le]

/-- Concrete 1x1 frame of pixel value 7 and exposure time 2. -/
def demoFrame : GuiderFrameData := ⟨⟨1, 1, fun _ _ => 7⟩, 2⟩

/-- Witness for the C9 theorem: the 1x1 demo frame stacks to itself divided
by its exposure time. -/
theorem stack_frames_single_frame_witness :
    ((0 : ℕ) < demoFrame.data.ny ∧ (0 : ℕ) < demoFrame.data.nx) ∧
    ∃ img, stack_frames (fun _ => 0) [demoFrame] [(3, 4)] none = some img ∧
      img.ny = demoFrame.data.ny ∧ img.nx = demoFrame.data.nx ∧
      img.px 0 0 = demoFrame.data.px 0 0 / demoFrame.exptime :=
  ⟨⟨by decide, by decide⟩,
   stack_frames_single_frame (fun _ => 0) none demoFrame (3, 4) 0 0
     (by decide) (by decide)⟩
